import Mathlib

/-!
Verification development for the `transito` photometry pipeline
(`src/transito/transito.py`, class `TimeSeriesData`).

The embedding models the repository's own code over exact rationals `ℚ`
(standing for IEEE floats, with arithmetic exact).  Calls into external
libraries (astropy, photutils, numpy's transcendental routines) are not code
of this repository; they enter the model either as oracle functions gathered
in the structure `Libs`, or as per-frame input data carried by `Frame`.
Everything the repository's functions compute themselves — control flow,
list accumulation, slicing arithmetic, the background subtraction, the
assertion, the broadcast arithmetic of `do_photometry` — is translated
directly from the source.
-/

namespace Transito

/-- Python `int(x)` / `np.int(x)`: truncation toward zero. -/
def pyInt (q : ℚ) : Int :=
  if 0 ≤ q then ⌊q⌋ else ⌈q⌉

/-- Normalisation of one Python slice bound for a sequence of length `n`:
a negative bound counts from the end, and the result is clamped to `[0, n]`. -/
def pySliceIdx (n : Nat) (i : Int) : Nat :=
  if i < 0 then (max (i + n) 0).toNat else (min i (n : Int)).toNat

/-- Python slice `xs[a:b]` (step 1) with full slice semantics:
negative bounds count from the end, out-of-range bounds clamp silently. -/
def pySlice {α : Type} (xs : List α) (a b : Int) : List α :=
  (xs.take (pySliceIdx xs.length b)).drop (pySliceIdx xs.length a)

/-- A 2-D numeric array (`numpy` array of pixel values), as a list of rows. -/
abbrev Mat := List (List ℚ)

/-- The 2-D cut `data[int(x)-w : int(x)+w, int(y)-w : int(y)+w]`
performed by `get_star_data` (transito.py lines 315-316), with Python's
silent slice clamping in both axes. -/
def subImage (data : Mat) (x y : ℚ) (w : Int) : Mat :=
  (pySlice data (pyInt x - w) (pyInt x + w)).map
    (fun row => pySlice row (pyInt y - w) (pyInt y + w))

/-- Arithmetic mean of a flat array (`np.mean`). -/
def npMean (xs : List ℚ) : ℚ :=
  xs.sum / (xs.length : ℚ)

/-- Population variance of a flat array: the square of `np.std` (ddof = 0). -/
def npVar (xs : List ℚ) : ℚ :=
  ((xs.map (fun x => (x - npMean xs) ^ 2)).sum) / (xs.length : ℚ)

/-- Median of a flat array (`np.median`): sort, take the middle element,
or the mean of the two middle elements for even length. -/
def npMedian (xs : List ℚ) : ℚ :=
  if (xs.insertionSort (· ≤ ·)).length = 0 then 0
  else if (xs.insertionSort (· ≤ ·)).length % 2 = 1 then
    (xs.insertionSort (· ≤ ·)).getD ((xs.insertionSort (· ≤ ·)).length / 2) 0
  else
    ((xs.insertionSort (· ≤ ·)).getD ((xs.insertionSort (· ≤ ·)).length / 2 - 1) 0 +
     (xs.insertionSort (· ≤ ·)).getD ((xs.insertionSort (· ≤ ·)).length / 2) 0) / 2

/-- Absolute tolerance of `np.ma.masked_values` (default `atol=1e-8`). -/
def npAtol : ℚ := 1 / 100000000

/-- Relative tolerance of `np.ma.masked_values` (default `rtol=1e-5`). -/
def npRtol : ℚ := 1 / 100000

/-- The masking predicate of `np.ma.masked_values(x, value)`: a pixel is
masked iff it is close to `value` in the `np.isclose` sense,
`|x - value| <= atol + rtol * |value|`. -/
def npCloseMask (x value : ℚ) : Bool :=
  decide (|x - value| ≤ npAtol + npRtol * |value|)

/-- Error raised by a numpy operation on non-broadcastable shapes. -/
inductive NpError : Type
  | broadcast : NpError
  deriving DecidableEq, Repr

/-- Two 1-D lengths are numpy-broadcast-compatible iff they are equal or one
of them is `1`. -/
def npCompatible (m n : Nat) : Prop := m = n ∨ m = 1 ∨ n = 1

instance (m n : Nat) : Decidable (npCompatible m n) := by
  unfold npCompatible; infer_instance

/-- Elementwise combination of two 1-D numpy arrays under broadcasting:
equal lengths combine pointwise, a length-1 array broadcasts against the
other, anything else raises a `ValueError`. -/
def npBroadcast (f : ℚ → ℚ → ℚ) (a b : List ℚ) : Except NpError (List ℚ) :=
  if a.length = b.length then .ok (List.zipWith f a b)
  else
    match a, b with
    | [x], ys => .ok (ys.map (fun y => f x y))
    | xs, [y] => .ok (xs.map (fun x => f x y))
    | _, _ => .error .broadcast

/-- 1-D numpy division with broadcasting. -/
def npDiv (a b : List ℚ) : Except NpError (List ℚ) :=
  npBroadcast (· / ·) a b

/-- 1-D numpy multiplication with broadcasting. -/
def npMul (a b : List ℚ) : Except NpError (List ℚ) :=
  npBroadcast (· * ·) a b

/-- 1-D numpy addition with broadcasting. -/
def npAdd (a b : List ℚ) : Except NpError (List ℚ) :=
  npBroadcast (· + ·) a b

/-- Row-wise application of a 1-D broadcast operation between a 2-D array
and a 1-D array (numpy's `(k, n) op (n,)` broadcasting). -/
def npRows (f : List ℚ → Except NpError (List ℚ)) (m : List (List ℚ)) :
    Except NpError (List (List ℚ)) :=
  m.mapM f

/-- Elementwise combination of two 2-D arrays of the same row count. -/
def npZip2 (f : ℚ → ℚ → ℚ) (a b : List (List ℚ)) :
    Except NpError (List (List ℚ)) :=
  if a.length = b.length then
    (List.zip a b).mapM (fun p => npBroadcast f p.1 p.2)
  else .error .broadcast

/-- Elementwise reciprocal of a 2-D array (`1.0 / m`). -/
def npRecip (m : List (List ℚ)) : List (List ℚ) :=
  m.map (fun row => row.map (fun x => 1 / x))

/-- Column-wise sum of a 2-D array (`np.sum(m, axis=0)`), assuming a
rectangular array whose rows have length `n`. -/
def npColSum (n : Nat) (m : List (List ℚ)) : List ℚ :=
  m.foldr (fun row acc => List.zipWith (· + ·) row acc) (List.replicate n 0)

/-- Weighted average along axis 0 (`np.average(m, weights=w, axis=0)`):
for each column `j`, `(Σ_i w i j * m i j) / (Σ_i w i j)`, assuming
rectangular arrays whose rows have length `n`. -/
def npAverageW (n : Nat) (m w : List (List ℚ)) : List ℚ :=
  List.zipWith (· / ·)
    (npColSum n (List.zipWith (fun mi wi => List.zipWith (· * ·) mi wi) m w))
    (npColSum n w)

/-- One message emitted on the run's logger by the code modelled here. -/
inductive LogMsg : Type
  | keywordError   -- logger.error("Header keyword does not exist")
  | outOfBox       -- logger.debug("Out of box. Choose a smaller outer radius.")
  | apertureInfo   -- logger.info(phot_table["target_aperture_bkg_subtracted"])
  deriving DecidableEq, Repr

/-- Oracle results of the external-library calls made per sub-image by
`get_star_data` and `make_aperture`: `np.std`, `photutils.centroid_2dg`,
the `aperture_sum_0` column of `photutils.aperture_photometry`, the
sigma-clipped annulus median of `astropy.stats.sigma_clipped_stats`, and
`CircularAperture(r).area`.  These are library computations, not code of
this repository, so the model quantifies over them. -/
structure Libs : Type where
  np_std : List ℚ → ℚ
  centroid_2dg : Mat → List (List Bool) → ℚ × ℚ
  aperture_sum_0 : Mat → ℚ × ℚ → ℚ → ℚ
  annulus_median_sigclip : Mat → ℚ × ℚ → ℚ → ℚ → ℚ
  circle_area : ℚ → ℚ

/-- One FITS frame as `get_star_data` consumes it: the WCS-validity flag
`is_celestial`, the pixel pair `(y, x)` returned by
`wcs.all_world2pix(star.ra, star.dec, 0)` (bound in the source to the local
names `y` and `x`, in that order), the pixel data, and the header-resolved
exposure time (days) and observation time. -/
structure Frame : Type where
  id : Nat
  is_celestial : Bool
  pix_y : ℚ
  pix_x : ℚ
  data : Mat
  exptime : ℚ
  obstime : ℚ

/-- Aperture configuration of `TimeSeriesData.__init__`: the aperture radius
`r` and the centroid box half-width `box_w`.  (`box_w` is an integer since
the source uses it directly as a slice offset.) -/
structure Config : Type where
  r : ℚ
  box_w : Int

/-- Inner background radius, `r_in = aperture_radius * 1.6`. -/
def Config.r_in (c : Config) : ℚ := c.r * (8 / 5)

/-- Outer background radius, `r_out = aperture_radius * 2.2`. -/
def Config.r_out (c : Config) : ℚ := c.r * (11 / 5)

/-- The accumulating state of `get_star_data`: the six output lists, the
`good_frames_list` attribute, and the logger's tail. -/
structure ExtractState : Type where
  object_counts : List ℚ := []
  background_in_object : List ℚ := []
  exptimes : List ℚ := []
  x_pos : List ℚ := []
  y_pos : List ℚ := []
  times : List ℚ := []
  good_frames_list : List Nat := []
  log : List LogMsg := []
  deriving DecidableEq, Repr

/-- Uncaught Python `AssertionError` (terminates the whole run). -/
inductive AssertErr : Type
  | assertionError
  deriving DecidableEq, Repr

/-- `TimeSeriesData.make_aperture` (transito.py lines 168-251).  The
photutils/astropy results (`aperture_sum_0`, the sigma-clipped annulus
median, the aperture area) come from the `Libs` oracles; the function's own
arithmetic is: `sky_bkg = median_sigclip`,
`background_in_target = sky_bkg * target_apertures.area`, the assertion
`aperture_sum_0 > background_in_target` (an `AssertionError` when it
fails, caught nowhere in the pipeline), the info log, and the returned pair
`(aperture_sum_0 - background_in_target, background_in_target)`. -/
def make_aperture (libs : Libs) (data : Mat) (coordinates : ℚ × ℚ)
    (radius r_in r_out : ℚ) : Except AssertErr (ℚ × ℚ) :=
  let aperture_sum_0 := libs.aperture_sum_0 data coordinates radius
  let median_sigclip := libs.annulus_median_sigclip data coordinates r_in r_out
  let sky_bkg := median_sigclip
  let background_in_target := sky_bkg * libs.circle_area radius
  if background_in_target < aperture_sum_0 then
    .ok (aperture_sum_0 - background_in_target, background_in_target)
  else
    .error .assertionError

/-- The centroid threshold of `get_star_data` (lines 318-320):
`np.median(sub_image - (sigma * np.std(sub_image)))` with `sigma = 1.0`,
computed over the flattened sub-image. -/
def centroidThreshold (libs : Libs) (sub : Mat) : ℚ :=
  npMedian ((sub.flatten).map (fun v => v - 1 * libs.np_std sub.flatten))

/-- The mask of `ma.masked_values(sub_image, threshold)` (line 321): each
pixel is masked iff it is `np.isclose` to the threshold value. -/
def centroidMask (libs : Libs) (sub : Mat) : List (List Bool) :=
  sub.map (fun row => row.map (fun v => npCloseMask v (centroidThreshold libs sub)))

/-- The sub-image cut of one frame (lines 315-316):
`data[np.int(x) - box_w : np.int(x) + box_w, np.int(y) - box_w : np.int(y) + box_w]`. -/
def frameSub (f : Frame) (w : Int) : Mat :=
  subImage f.data f.pix_x f.pix_y w

/-- The refined centroid of one frame (lines 318-327): the 2-D Gaussian
centroid fit over the masked sub-image. -/
def frameCen (libs : Libs) (f : Frame) (w : Int) : ℚ × ℚ :=
  libs.centroid_2dg (frameSub f w) (centroidMask libs (frameSub f w))

/-- The aperture measurement of one frame (lines 336-341):
`self.make_aperture(sub_image, (x_cen, y_cen), radius=self.r,
r_in=self.r_in, r_out=self.r_out)`. -/
def frameMeasure (libs : Libs) (cfg : Config) (f : Frame) :
    Except AssertErr (ℚ × ℚ) :=
  make_aperture libs (frameSub f cfg.box_w) (frameCen libs f cfg.box_w)
    cfg.r cfg.r_in cfg.r_out

/-- The lock-step appends of a successful frame (lines 343-348, together
with `make_aperture`'s info log): counts, background, positions (the source
appends the local `x` to `x_pos` and `y` to `y_pos`), observation time and
the good-frames entry. -/
def pushFrame (st : ExtractState) (f : Frame) (counts bkg : ℚ) : ExtractState :=
  { st with
    log := st.log ++ [.apertureInfo]
    object_counts := st.object_counts ++ [counts]
    background_in_object := st.background_in_object ++ [bkg]
    x_pos := st.x_pos ++ [f.pix_x]
    y_pos := st.y_pos ++ [f.pix_y]
    times := st.times ++ [f.obstime]
    good_frames_list := st.good_frames_list ++ [f.id] }

/-- The body of the `for fn in fits_files[0:600]` loop of
`TimeSeriesData.get_star_data` (lines 297-350), as a recursion over the
remaining frames carrying the accumulated `ExtractState`.  A non-celestial
frame falls to the `else: continue` branch untouched; a celestial frame
first hits the `r_out > box_w` check (`break`, after a debug log), then the
sub-image cut, the centroid mask and fit, the exposure-time append (which
the source performs before the aperture call), and the aperture measurement
whose `AssertionError` propagates out uncaught. -/
def extractLoop (libs : Libs) (cfg : Config) :
    List Frame → ExtractState → Except AssertErr ExtractState
  | [], st => .ok st
  | f :: rest, st =>
    if f.is_celestial then
      if cfg.r_out > (cfg.box_w : ℚ) then
        .ok { st with log := st.log ++ [.outOfBox] }
      else
        let st1 := { st with exptimes := st.exptimes ++ [f.exptime * 24 * 60 * 60] }
        match frameMeasure libs cfg f with
        | .error e => .error e
        | .ok (counts_in_aperture, bkg_in_object) =>
          extractLoop libs cfg rest (pushFrame st1 f counts_in_aperture bkg_in_object)
    else
      extractLoop libs cfg rest st

/-- `TimeSeriesData.get_star_data` (lines 254-353): fresh empty accumulators
(including `self.good_frames_list`), the loop over the first 600 located
files, and the final state from which the six-tuple
`(object_counts, background_in_object, exptimes, x_pos, y_pos, times)` is
returned (the state also records `good_frames_list` and the log). -/
def get_star_data (libs : Libs) (cfg : Config) (frames : List Frame) :
    Except AssertErr ExtractState :=
  extractLoop libs cfg (frames.take 600) {}

/-- The `Outputs` namedtuple of `get_keyword_value`:
`"exp obstime instr readout gain"`. -/
structure KwOutputs (V : Type) : Type where
  exp : V
  obstime : V
  instr : V
  readout : V
  gain : V
  deriving DecidableEq, Repr

/-- The five configured keyword names (one CSV column of
`telescope_keywords.csv`, in row order), as unpacked positionally by
`get_keyword_value`. -/
structure KwList (K : Type) : Type where
  k_exp : K
  k_obstime : K
  k_instr : K
  k_readout : K
  k_gain : K

/-- `TimeSeriesData.get_keyword_value` (lines 150-166).  The header is a
partial map from keywords to values; `itemgetter(*self.keyword_list)` raises
`KeyError` on the first absent keyword, which the function catches: it logs
an error and returns the caller-supplied `default`.  Otherwise the five
values are unpacked into the `Outputs` namedtuple. -/
def get_keyword_value {K V D : Type} (header : K → Option V)
    (keyword_list : KwList K) (default : D) :
    (D ⊕ KwOutputs V) × List LogMsg :=
  match header keyword_list.k_exp, header keyword_list.k_obstime,
        header keyword_list.k_instr, header keyword_list.k_readout,
        header keyword_list.k_gain with
  | some exp, some obstime, some instr, some readout, some gain =>
    (.inr ⟨exp, obstime, instr, readout, gain⟩, [])
  | _, _, _, _, _ => (.inl default, [.keywordError])

/-- The intermediate and final series of the `do_photometry` fragment
modelled below (each field is one of the `self.*` / local assignments of
lines 454-503). -/
structure PhotOut : Type where
  reference_star_flux_sec : List (List ℚ)
  ref_flux_averaged : List ℚ
  differential_flux : List ℚ
  normalized_flux : List ℚ
  deriving DecidableEq, Repr

/-- The flux-combination fragment of `TimeSeriesData.do_photometry`
(transito.py lines 413-416 and 454-503), from the extracted series to the
normalized differential flux.  Inputs: the target's raw counts and
exposure-time array `exptimes` (seconds, already `np.asarray`ed), the
`readout_noise` array of line 421 (`(readout*r)**2*pi*ones(n)`, carried as
data since `pi` is transcendental), and each reference star's raw counts
and backgrounds from `get_star_data`.  Faithfully to the source, every
reference star's series is divided by the TARGET's `exptimes` (line 468:
`np.asarray(refer_flux) / exptimes`; the reference star's own
`exptimes_ref` is unused), with numpy's 1-D broadcast rules; the noise
magnitudes of lines 421-451 are omitted as they do not feed these outputs
(they involve `sqrt`/`log10`).  Computes `sigma_squared_ref`,
`weights_ref_stars = 1.0 / sigma_squared_ref`,
`ref_flux_averaged = np.average(reference_star_flux_sec * exptimes,
weights=weights_ref_stars, axis=0)`,
`differential_flux = target_flux / ref_flux_averaged` and
`normalized_flux = differential_flux / np.nanmedian(differential_flux)`. -/
def do_photometry_core (target_flux exptimes readout_noise : List ℚ)
    (refs bkgs : List (List ℚ)) : Except NpError PhotOut := do
  let reference_star_flux_sec ← npRows (fun refer_flux => npDiv refer_flux exptimes) refs
  let background_in_ref_star_sec ← npRows (fun b => npDiv b exptimes) bkgs
  let flux_by_exp ← npRows (fun row => npMul row exptimes) reference_star_flux_sec
  let bkg_by_exp ← npRows (fun row => npMul row exptimes) background_in_ref_star_sec
  let s1 ← npZip2 (· + ·) flux_by_exp bkg_by_exp
  let sigma_squared_ref ← npRows (fun row => npAdd row readout_noise) s1
  let weights_ref_stars := npRecip sigma_squared_ref
  let ref_flux_averaged :=
    npAverageW exptimes.length flux_by_exp weights_ref_stars
  let differential_flux ← npDiv target_flux ref_flux_averaged
  let normalized_flux :=
    differential_flux.map (fun v => v / npMedian differential_flux)
  return { reference_star_flux_sec := reference_star_flux_sec
           ref_flux_averaged := ref_flux_averaged
           differential_flux := differential_flux
           normalized_flux := normalized_flux }

/-- Written from the specification's words, for comparison with the code
(spec §4.6 steps 6-7): the variance-weighted average of the per-exposure
reference fluxes, with weights the inverse of
`flux*exptime + background*exptime + readout_variance`.  For reference star
`i` and exposure `j` the per-exposure flux `flux i j * exptime j` is the
star's raw counts `c i j`, and `background i j * exptime j` its raw
background counts `b i j`, so the weight is `1 / (c + b + rvar)` and the
averaged quantity is `c`. -/
def specWeightedReferenceFlux (refs bkgs : List (List ℚ)) (rvar : List ℚ)
    (n : Nat) : List ℚ :=
  let weights := List.zipWith
    (fun c b => List.zipWith (fun x y => 1 / (x + y))
      (List.zipWith (· + ·) c b) rvar) refs bkgs
  npAverageW n refs weights

/-- Written from the specification's words (spec §4.6 step 7):
`differential_flux = target_counts / weighted_reference_flux`. -/
def specDifferentialFlux (target_counts weighted_reference_flux : List ℚ) :
    List ℚ :=
  List.zipWith (· / ·) target_counts weighted_reference_flux

/-- Written from the specification's words (spec §4.6 step 7):
`normalized_flux = differential_flux / median(differential_flux)`. -/
def specNormalizedFlux (differential_flux : List ℚ) : List ℚ :=
  differential_flux.map (fun v => v / npMedian differential_flux)

/-!  Concrete sample inputs used by witnesses and counterexamples. -/

/-- Sample library oracles: constant std 2, centroid (1, 1), aperture sum 10,
annulus median 1, aperture area 2. -/
def oneLibs : Libs where
  np_std := fun _ => 2
  centroid_2dg := fun _ _ => (1, 1)
  aperture_sum_0 := fun _ _ _ => 10
  annulus_median_sigclip := fun _ _ _ _ => 1
  circle_area := fun _ => 2

/-- Sample frame with a valid celestial WCS. -/
def goodFrame : Frame :=
  { id := 7, is_celestial := true, pix_y := 3/2, pix_x := 5/2,
    data := [[1, 2, 3], [4, 5, 6], [7, 8, 9]], exptime := 1/86400, obstime := 100 }

/-- Sample frame without a celestial WCS. -/
def badFrame : Frame :=
  { goodFrame with id := 3, is_celestial := false }

/-- Sample configuration with `r_out = 2.2 <= box_w = 3`. -/
def cfgSmall : Config := { r := 1, box_w := 3 }

/-- Claim C1: a call to `make_aperture` raises a hard failure (an uncaught
`AssertionError`) iff the aperture sum is not strictly greater than
`background_in_target`; on success it returns the pair
`(aperture_sum - background_in_target, background_in_target)` and no
exception propagates; and the failure propagates uncaught out of the
extraction loop, terminating the run. -/
theorem claim_C1 (libs : Libs) (data : Mat) (c : ℚ × ℚ) (radius r_in r_out : ℚ) :
    (make_aperture libs data c radius r_in r_out = .error .assertionError ↔
      ¬ (libs.annulus_median_sigclip data c r_in r_out * libs.circle_area radius <
          libs.aperture_sum_0 data c radius)) ∧
    (make_aperture libs data c radius r_in r_out =
        .ok (libs.aperture_sum_0 data c radius -
              libs.annulus_median_sigclip data c r_in r_out * libs.circle_area radius,
             libs.annulus_median_sigclip data c r_in r_out * libs.circle_area radius) ↔
      libs.annulus_median_sigclip data c r_in r_out * libs.circle_area radius <
        libs.aperture_sum_0 data c radius) ∧
    (∀ (cfg : Config) (f : Frame) (rest : List Frame) (st : ExtractState),
      f.is_celestial = true → ¬ (cfg.r_out > (cfg.box_w : ℚ)) →
      frameMeasure libs cfg f = .error .assertionError →
      extractLoop libs cfg (f :: rest) st = .error .assertionError) := by
  refine ⟨?_, ?_, ?_⟩
  · simp only [make_aperture]
    split_ifs with h <;> simp [h]
  · simp only [make_aperture]
    split_ifs with h <;> simp [h]
  · intro cfg f rest st hcel hbox herr
    simp only [extractLoop, hcel, if_true, if_neg hbox]
    rw [herr]

/-- Witness for C1 at concrete inputs: the success branch of the iff. -/
theorem claim_C1_witness :
    oneLibs.annulus_median_sigclip [] (0, 0) (8/5) (11/5) * oneLibs.circle_area 1 <
      oneLibs.aperture_sum_0 [] (0, 0) 1 ∧
    make_aperture oneLibs [] (0, 0) 1 (8/5) (11/5) =
      .ok (oneLibs.aperture_sum_0 [] (0, 0) 1 -
            oneLibs.annulus_median_sigclip [] (0, 0) (8/5) (11/5) * oneLibs.circle_area 1,
           oneLibs.annulus_median_sigclip [] (0, 0) (8/5) (11/5) * oneLibs.circle_area 1) :=
  ⟨by norm_num [oneLibs],
   (claim_C1 oneLibs [] (0, 0) 1 (8/5) (11/5)).2.1.mpr (by norm_num [oneLibs])⟩

/-- Claim C6: for every successful measurement returned by `make_aperture`,
the `background_in_target` component equals the sigma-clipped annulus median
times the area of the circular target aperture, exactly. -/
theorem claim_C6 (libs : Libs) (data : Mat) (c : ℚ × ℚ)
    (radius r_in r_out net bkg : ℚ)
    (h : make_aperture libs data c radius r_in r_out = .ok (net, bkg)) :
    bkg = libs.annulus_median_sigclip data c r_in r_out * libs.circle_area radius := by
  simp only [make_aperture] at h
  split_ifs at h with hlt
  simp only [Except.ok.injEq, Prod.mk.injEq] at h
  exact h.2.symm

/-- Witness for C6 at concrete inputs. -/
theorem claim_C6_witness :
    (2 : ℚ) = oneLibs.annulus_median_sigclip [] (0, 0) (8/5) (11/5) *
      oneLibs.circle_area 1 :=
  claim_C6 oneLibs [] (0, 0) 1 (8/5) (11/5) 8 2 (by with_unfolding_all rfl)

/-- Helper: when the aperture geometry violates the box
(`r_out > box_w`), the loop never appends anything: every celestial frame
immediately breaks and every non-celestial frame is skipped. -/
lemma extractLoop_box_violation (libs : Libs) (cfg : Config)
    (h : cfg.r_out > (cfg.box_w : ℚ)) :
    ∀ (frames : List Frame) (st : ExtractState), ∃ st',
      extractLoop libs cfg frames st = .ok st' ∧
      st'.object_counts = st.object_counts ∧
      st'.background_in_object = st.background_in_object ∧
      st'.exptimes = st.exptimes ∧
      st'.x_pos = st.x_pos ∧
      st'.y_pos = st.y_pos ∧
      st'.times = st.times ∧
      st'.good_frames_list = st.good_frames_list := by
  intro frames
  induction frames with
  | nil =>
    intro st
    exact ⟨st, rfl, rfl, rfl, rfl, rfl, rfl, rfl, rfl⟩
  | cons f rest ih =>
    intro st
    by_cases hc : f.is_celestial = true
    · refine ⟨{ st with log := st.log ++ [.outOfBox] }, ?_,
        rfl, rfl, rfl, rfl, rfl, rfl, rfl⟩
      simp [extractLoop, hc, h]
    · obtain ⟨st', h1, h2⟩ := ih st
      refine ⟨st', ?_, h2.1, h2.2.1, h2.2.2.1, h2.2.2.2.1, h2.2.2.2.2.1,
        h2.2.2.2.2.2.1, h2.2.2.2.2.2.2⟩
      rw [← h1]
      simp [extractLoop, hc]

/-- Claim C4: with `r_out > box_w` the Extractor stops processing all
remaining frames for the current star and returns the data accumulated so
far with no exception raised; since the break fires on the first celestial
frame before any append, all six returned sequences (and
`good_frames_list`) are empty. -/
theorem claim_C4 (libs : Libs) (cfg : Config) (frames : List Frame)
    (h : cfg.r_out > (cfg.box_w : ℚ)) :
    ∃ st, get_star_data libs cfg frames = .ok st ∧
      st.object_counts = [] ∧ st.background_in_object = [] ∧
      st.exptimes = [] ∧ st.x_pos = [] ∧ st.y_pos = [] ∧
      st.times = [] ∧ st.good_frames_list = [] := by
  obtain ⟨st', h1, h2⟩ := extractLoop_box_violation libs cfg h (frames.take 600) {}
  exact ⟨st', h1, h2.1, h2.2.1, h2.2.2.1, h2.2.2.2.1, h2.2.2.2.2.1,
    h2.2.2.2.2.2.1, h2.2.2.2.2.2.2⟩

/-- Witness for C4 at the claim's own scenario: aperture radius 10 gives
`r_out = 22 > box_w = 20`, and the run over a non-celestial and a celestial
frame returns empty sequences. -/
theorem claim_C4_witness :
    Config.r_out { r := 10, box_w := 20 } > ((20 : Int) : ℚ) ∧
    (∃ st, get_star_data oneLibs { r := 10, box_w := 20 } [badFrame, goodFrame] = .ok st ∧
      st.object_counts = [] ∧ st.background_in_object = [] ∧
      st.exptimes = [] ∧ st.x_pos = [] ∧ st.y_pos = [] ∧
      st.times = [] ∧ st.good_frames_list = []) :=
  ⟨by norm_num [Config.r_out],
   claim_C4 oneLibs { r := 10, box_w := 20 } [badFrame, goodFrame]
     (by norm_num [Config.r_out])⟩

/-- Claim C5 (amended): a frame without a valid celestial WCS is skipped
silently — the loop state, including all six output sequences,
`good_frames_list` and the log, is exactly the state in which the remaining
frames are processed; no exception is raised for the skipped frame and no
log entry records the skip. -/
theorem claim_C5 (libs : Libs) (cfg : Config) (f : Frame) (rest : List Frame)
    (st : ExtractState) (h : f.is_celestial = false) :
    extractLoop libs cfg (f :: rest) st = extractLoop libs cfg rest st := by
  simp [extractLoop, h]

/-- Counterexample for C5 as stated: processing a single frame with no
celestial WCS leaves the log empty — the skip is not logged, contrary to
the claim's "logs the skip" (the source's `else: continue` branch at lines
349-350 contains no logger call). -/
theorem claim_C5_counterexample :
    get_star_data oneLibs cfgSmall [badFrame] =
      .ok { object_counts := [], background_in_object := [], exptimes := [],
            x_pos := [], y_pos := [], times := [], good_frames_list := [],
            log := [] } := by
  with_unfolding_all rfl

/-- Witness for C5 at concrete inputs. -/
theorem claim_C5_witness :
    extractLoop oneLibs cfgSmall [badFrame, goodFrame] {} =
      extractLoop oneLibs cfgSmall [goodFrame] {} :=
  claim_C5 oneLibs cfgSmall badFrame [goodFrame] {} rfl

/-- Helper: the loop preserves the lock-step alignment of the six output
sequences with `good_frames_list`. -/
lemma extractLoop_aligned (libs : Libs) (cfg : Config) :
    ∀ (frames : List Frame) (st st' : ExtractState),
      extractLoop libs cfg frames st = .ok st' →
      st.object_counts.length = st.good_frames_list.length →
      st.background_in_object.length = st.good_frames_list.length →
      st.exptimes.length = st.good_frames_list.length →
      st.x_pos.length = st.good_frames_list.length →
      st.y_pos.length = st.good_frames_list.length →
      st.times.length = st.good_frames_list.length →
      (st'.object_counts.length = st'.good_frames_list.length ∧
       st'.background_in_object.length = st'.good_frames_list.length ∧
       st'.exptimes.length = st'.good_frames_list.length ∧
       st'.x_pos.length = st'.good_frames_list.length ∧
       st'.y_pos.length = st'.good_frames_list.length ∧
       st'.times.length = st'.good_frames_list.length) := by
  intro frames
  induction frames with
  | nil =>
    intro st st' h h1 h2 h3 h4 h5 h6
    obtain rfl : st = st' := by simpa [extractLoop] using h
    exact ⟨h1, h2, h3, h4, h5, h6⟩
  | cons f rest ih =>
    intro st st' h h1 h2 h3 h4 h5 h6
    by_cases hc : f.is_celestial = true
    · by_cases hb : cfg.r_out > (cfg.box_w : ℚ)
      · simp only [extractLoop, hc, if_true, if_pos hb, Except.ok.injEq] at h
        subst h
        exact ⟨h1, h2, h3, h4, h5, h6⟩
      · simp only [extractLoop, hc, if_true, if_neg hb] at h
        cases hm : frameMeasure libs cfg f with
        | error e => rw [hm] at h; cases h
        | ok p =>
          obtain ⟨counts, bkg⟩ := p
          rw [hm] at h
          exact ih _ st' h (by simp [pushFrame, h1]) (by simp [pushFrame, h2])
            (by simp [pushFrame, h3]) (by simp [pushFrame, h4])
            (by simp [pushFrame, h5]) (by simp [pushFrame, h6])
    · simp only [extractLoop, if_neg hc] at h
      exact ih st st' h h1 h2 h3 h4 h5 h6

/-- Claim C2: for every completed (non-aborting) invocation of
`get_star_data`, the six returned sequences all have the same length, and
that common length is the number of entries in `good_frames_list`. -/
theorem claim_C2 (libs : Libs) (cfg : Config) (frames : List Frame)
    (out : ExtractState) (h : get_star_data libs cfg frames = .ok out) :
    out.object_counts.length = out.good_frames_list.length ∧
    out.background_in_object.length = out.good_frames_list.length ∧
    out.exptimes.length = out.good_frames_list.length ∧
    out.x_pos.length = out.good_frames_list.length ∧
    out.y_pos.length = out.good_frames_list.length ∧
    out.times.length = out.good_frames_list.length :=
  extractLoop_aligned libs cfg (frames.take 600) {} out h rfl rfl rfl rfl rfl rfl

/-- The output state of the sample run used by the C2 witness: one skipped
non-celestial frame, one good frame. -/
def stGood : ExtractState :=
  { object_counts := [8], background_in_object := [2], exptimes := [1],
    x_pos := [5/2], y_pos := [3/2], times := [100],
    good_frames_list := [7], log := [.apertureInfo] }

/-- Witness for C2 at concrete inputs. -/
theorem claim_C2_witness :
    stGood.object_counts.length = stGood.good_frames_list.length ∧
    stGood.background_in_object.length = stGood.good_frames_list.length ∧
    stGood.exptimes.length = stGood.good_frames_list.length ∧
    stGood.x_pos.length = stGood.good_frames_list.length ∧
    stGood.y_pos.length = stGood.good_frames_list.length ∧
    stGood.times.length = stGood.good_frames_list.length :=
  claim_C2 oneLibs cfgSmall [badFrame, goodFrame] stGood (by with_unfolding_all rfl)

/-- Claim C8: if at least one configured keyword is absent from the header,
`get_keyword_value` logs an error and returns the caller-supplied default
(no exception propagates); when all five are present it returns the
`(exp, obstime, instr, readout, gain)` tuple of their values. -/
theorem claim_C8 {K V D : Type} (header : K → Option V) (kws : KwList K)
    (default : D) :
    ((header kws.k_exp = none ∨ header kws.k_obstime = none ∨
      header kws.k_instr = none ∨ header kws.k_readout = none ∨
      header kws.k_gain = none) →
      get_keyword_value header kws default = (.inl default, [.keywordError])) ∧
    (∀ e o i r g, header kws.k_exp = some e → header kws.k_obstime = some o →
      header kws.k_instr = some i → header kws.k_readout = some r →
      header kws.k_gain = some g →
      get_keyword_value header kws default = (.inr ⟨e, o, i, r, g⟩, [])) := by
  constructor
  · intro h
    cases he : header kws.k_exp <;> cases ho : header kws.k_obstime <;>
      cases hi : header kws.k_instr <;> cases hr : header kws.k_readout <;>
      cases hg : header kws.k_gain <;>
      simp_all [get_keyword_value]
  · intro e o i r g he ho hi hr hg
    simp [get_keyword_value, he, ho, hi, hr, hg]

/-- The five keyword names of the witness configuration. -/
def kwsNat : KwList Nat := ⟨0, 1, 2, 3, 4⟩

/-- A witness header carrying all five keywords. -/
def hdrFull : Nat → Option Nat := fun k => if k < 5 then some (k * 10) else none

/-- A witness header missing the gain keyword. -/
def hdrMiss : Nat → Option Nat := fun k => if k = 4 then none else some k

/-- Witness for C8: one header with a missing keyword falls back to the
default with an error log, one full header yields the five-field tuple. -/
theorem claim_C8_witness :
    get_keyword_value hdrMiss kwsNat (42 : Nat) = (.inl 42, [.keywordError]) ∧
    get_keyword_value hdrFull kwsNat (42 : Nat) = (.inr ⟨0, 10, 20, 30, 40⟩, []) :=
  ⟨(claim_C8 hdrMiss kwsNat 42).1 (by simp [hdrMiss, kwsNat]),
   (claim_C8 hdrFull kwsNat 42).2 0 10 20 30 40 rfl rfl rfl rfl rfl⟩

/-- Helper: a broadcast operation on equal-length arrays is plain `zipWith`. -/
lemma npBroadcast_of_length_eq (f : ℚ → ℚ → ℚ) (a b : List ℚ)
    (h : a.length = b.length) :
    npBroadcast f a b = .ok (List.zipWith f a b) := by
  simp [npBroadcast, h]

/-- Helper: a broadcast operation on incompatible shapes raises the
broadcast error. -/
lemma npBroadcast_error_of_not_compatible (f : ℚ → ℚ → ℚ) (a b : List ℚ)
    (h : ¬ npCompatible a.length b.length) :
    npBroadcast f a b = .error .broadcast := by
  unfold npCompatible at h
  push_neg at h
  obtain ⟨h1, h2, h3⟩ := h
  unfold npBroadcast
  rw [if_neg h1]
  rcases a with _ | ⟨x, _ | ⟨x2, xs⟩⟩
  · rcases b with _ | ⟨y, _ | ⟨y2, ys⟩⟩
    · simp at h1
    · simp at h3
    · rfl
  · simp at h2
  · rcases b with _ | ⟨y, _ | ⟨y2, ys⟩⟩
    · rfl
    · simp at h3
    · rfl

/-- Helper: a broadcast operation on compatible shapes succeeds. -/
lemma npBroadcast_ok_of_compatible (f : ℚ → ℚ → ℚ) (a b : List ℚ)
    (h : npCompatible a.length b.length) :
    ∃ c, npBroadcast f a b = .ok c := by
  unfold npBroadcast
  split_ifs with he
  · exact ⟨_, rfl⟩
  · rcases h with h | h | h
    · exact absurd h he
    · obtain ⟨x, rfl⟩ := List.length_eq_one.mp h
      rcases b with _ | ⟨y, _ | ⟨y2, ys⟩⟩
      · exact ⟨_, rfl⟩
      · exact ⟨_, rfl⟩
      · exact ⟨_, rfl⟩
    · obtain ⟨y, rfl⟩ := List.length_eq_one.mp h
      rcases a with _ | ⟨x, _ | ⟨x2, xs⟩⟩
      · exact ⟨_, rfl⟩
      · exact ⟨_, rfl⟩
      · exact ⟨_, rfl⟩

/-- Helper: `mapM` over `Except` with pointwise-known successes is `map`. -/
lemma mapM_ok {α β : Type} (F : α → Except NpError β) (G : α → β) (l : List α)
    (h : ∀ x ∈ l, F x = .ok (G x)) : l.mapM F = .ok (l.map G) := by
  induction l with
  | nil => rfl
  | cons a t ih =>
    rw [List.mapM_cons, h a (List.mem_cons_self a t),
      ih (fun x hx => h x (List.mem_cons_of_mem a hx))]
    rfl

/-- Helper: `mapM` over `Except` fails as soon as some element fails. -/
lemma mapM_error {α β : Type} (F : α → Except NpError β) (l : List α)
    (hok : ∀ x ∈ l, F x = .error .broadcast ∨ ∃ c, F x = .ok c)
    (h : ∃ x ∈ l, F x = .error .broadcast) :
    l.mapM F = .error .broadcast := by
  induction l with
  | nil => obtain ⟨x, hx, _⟩ := h; cases hx
  | cons a t ih =>
    rw [List.mapM_cons]
    rcases hok a (List.mem_cons_self a t) with ha | ⟨c, hc⟩
    · rw [ha]; rfl
    · rw [hc]
      obtain ⟨x, hx, hxe⟩ := h
      rcases List.mem_cons.mp hx with rfl | hxt
      · rw [hxe] at hc; cases hc
      · rw [ih (fun y hy => hok y (List.mem_cons_of_mem a hy)) ⟨x, hxt, hxe⟩]
        rfl

/-- Helper: mapping the uncurried combination over a zip is `zipWith`. -/
lemma map_zip_eq_zipWith {α β γ : Type} (F : α → β → γ) :
    ∀ (as : List α) (bs : List β),
      (as.zip bs).map (fun p => F p.1 p.2) = List.zipWith F as bs := by
  intro as
  induction as with
  | nil => intro bs; rfl
  | cons a t ih =>
    intro bs
    cases bs with
    | nil => rfl
    | cons b bt => simp [ih bt]

/-- Helper: the column sums of a rectangular array have the row length. -/
lemma npColSum_length (n : Nat) :
    ∀ (m : List (List ℚ)), (∀ row ∈ m, row.length = n) →
      (npColSum n m).length = n := by
  intro m
  induction m with
  | nil => intro _; simp [npColSum]
  | cons row t ih =>
    intro h
    have ht := ih (fun r hr => h r (List.mem_cons_of_mem row hr))
    have hrow := h row (List.mem_cons_self row t)
    simp only [npColSum, List.foldr_cons] at ht ⊢
    rw [List.length_zipWith, hrow, ht]
    simp

/-- Helper: membership in a `zipWith` comes from members of the inputs. -/
lemma forall_mem_zipWith {α β γ : Type} (P : γ → Prop) (g : α → β → γ) :
    ∀ (as : List α) (bs : List β),
      (∀ a ∈ as, ∀ b ∈ bs, P (g a b)) → ∀ c ∈ List.zipWith g as bs, P c := by
  intro as
  induction as with
  | nil => intro bs _ c hc; simp at hc
  | cons a t ih =>
    intro bs h c hc
    cases bs with
    | nil => simp at hc
    | cons b bt =>
      rcases List.mem_cons.mp hc with rfl | hct
      · exact h a (List.mem_cons_self a t) b (List.mem_cons_self b bt)
      · exact ih bt
          (fun x hx y hy =>
            h x (List.mem_cons_of_mem a hx) y (List.mem_cons_of_mem b hy))
          c hct

/-- Helper: the weighted column average of rectangular arrays has the row
length. -/
lemma npAverageW_length (n : Nat) (m w : List (List ℚ))
    (hm : ∀ row ∈ m, row.length = n) (hw : ∀ row ∈ w, row.length = n) :
    (npAverageW n m w).length = n := by
  have hzip : ∀ row ∈ List.zipWith (fun mi wi => List.zipWith (· * ·) mi wi) m w,
      row.length = n := by
    refine forall_mem_zipWith _ (fun mi wi => List.zipWith (· * ·) mi wi) m w ?_
    intro a ha b hb
    rw [List.length_zipWith, hm a ha, hw b hb]
    simp
  unfold npAverageW
  rw [List.length_zipWith, npColSum_length n w hw, npColSum_length n _ hzip]
  simp

/-- Helper: `ok` input propagates through `Except` bind. -/
lemma except_bind_ok {α β : Type} (a : α) (f : α → Except NpError β) :
    (Except.ok a >>= f : Except NpError β) = f a := rfl

/-- Helper: `error` input propagates through `Except` bind. -/
lemma except_bind_error {α β : Type} (e : NpError)
    (f : α → Except NpError β) :
    (Except.error e >>= f : Except NpError β) = Except.error e := rfl

/-- Helper: elementwise 2-D combination under equal shapes. -/
lemma npZip2_ok (f : ℚ → ℚ → ℚ) (a b : List (List ℚ))
    (hlen : a.length = b.length)
    (h : ∀ p ∈ a.zip b, (Prod.fst p).length = (Prod.snd p).length) :
    npZip2 f a b = .ok ((a.zip b).map (fun p => List.zipWith f p.1 p.2)) := by
  unfold npZip2
  rw [if_pos hlen]
  exact mapM_ok _ _ _ (fun p hp => npBroadcast_of_length_eq f p.1 p.2 (h p hp))

/-- Closed form, under rectangular inputs, of the per-second reference
fluxes of `do_photometry_core`: each star's raw counts divided elementwise
by the target's exposure times. -/
def rectRefSec (refs : List (List ℚ)) (exptimes : List ℚ) : List (List ℚ) :=
  refs.map (fun rf => List.zipWith (· / ·) rf exptimes)

/-- Closed form of `reference_star_flux_sec * exptimes` (the per-exposure
counts as the code recomputes them). -/
def rectFluxExp (refs : List (List ℚ)) (exptimes : List ℚ) : List (List ℚ) :=
  (rectRefSec refs exptimes).map (fun row => List.zipWith (· * ·) row exptimes)

/-- Closed form of `sigma_squared_ref`. -/
def rectSigma (refs bkgs : List (List ℚ)) (exptimes ron : List ℚ) :
    List (List ℚ) :=
  ((rectFluxExp refs exptimes).zip (rectFluxExp bkgs exptimes)).map
    (fun p => List.zipWith (· + ·) (List.zipWith (· + ·) p.1 p.2) ron)

/-- Closed form of `ref_flux_averaged`. -/
def rectAvg (refs bkgs : List (List ℚ)) (exptimes ron : List ℚ) : List ℚ :=
  npAverageW exptimes.length (rectFluxExp refs exptimes)
    (npRecip (rectSigma refs bkgs exptimes ron))

/-- Closed form of `differential_flux`. -/
def rectDiff (target : List ℚ) (refs bkgs : List (List ℚ))
    (exptimes ron : List ℚ) : List ℚ :=
  List.zipWith (· / ·) target (rectAvg refs bkgs exptimes ron)

/-- Helper: on rectangular inputs (every reference and background series as
long as the target's exposure-time array, as many backgrounds as
references, target counts and readout array of the same length) the
photometry core completes without a broadcast error, with each intermediate
in its closed form. -/
lemma core_rect (target exptimes ron : List ℚ) (refs bkgs : List (List ℚ))
    (hr : ∀ rf ∈ refs, rf.length = exptimes.length)
    (hb : ∀ b ∈ bkgs, b.length = exptimes.length)
    (hk : refs.length = bkgs.length)
    (ht : target.length = exptimes.length)
    (hron : ron.length = exptimes.length) :
    do_photometry_core target exptimes ron refs bkgs = .ok
      { reference_star_flux_sec := rectRefSec refs exptimes
        ref_flux_averaged := rectAvg refs bkgs exptimes ron
        differential_flux := rectDiff target refs bkgs exptimes ron
        normalized_flux := (rectDiff target refs bkgs exptimes ron).map
          (fun v => v / npMedian (rectDiff target refs bkgs exptimes ron)) } := by
  have hRS : ∀ row ∈ rectRefSec refs exptimes, row.length = exptimes.length := by
    intro row hrow
    obtain ⟨rf, hf, rfl⟩ := List.mem_map.mp hrow
    rw [List.length_zipWith, hr rf hf]
    simp
  have hBS : ∀ row ∈ rectRefSec bkgs exptimes, row.length = exptimes.length := by
    intro row hrow
    obtain ⟨rf, hf, rfl⟩ := List.mem_map.mp hrow
    rw [List.length_zipWith, hb rf hf]
    simp
  have hFE : ∀ row ∈ rectFluxExp refs exptimes, row.length = exptimes.length := by
    intro row hrow
    obtain ⟨r0, h0, rfl⟩ := List.mem_map.mp hrow
    rw [List.length_zipWith, hRS r0 h0]
    simp
  have hBE : ∀ row ∈ rectFluxExp bkgs exptimes, row.length = exptimes.length := by
    intro row hrow
    obtain ⟨r0, h0, rfl⟩ := List.mem_map.mp hrow
    rw [List.length_zipWith, hBS r0 h0]
    simp
  have hS1 : ∀ row ∈ ((rectFluxExp refs exptimes).zip (rectFluxExp bkgs exptimes)).map
      (fun p => List.zipWith (· + ·) p.1 p.2), row.length = exptimes.length := by
    intro row hrow
    obtain ⟨p, hp, rfl⟩ := List.mem_map.mp hrow
    obtain ⟨hp1, hp2⟩ := List.of_mem_zip (by exact hp)
    rw [List.length_zipWith, hFE _ hp1, hBE _ hp2]
    simp
  have hSG : ∀ row ∈ rectSigma refs bkgs exptimes ron, row.length = exptimes.length := by
    intro row hrow
    obtain ⟨p, hp, rfl⟩ := List.mem_map.mp hrow
    obtain ⟨hp1, hp2⟩ := List.of_mem_zip (by exact hp)
    rw [List.length_zipWith, List.length_zipWith, hFE _ hp1, hBE _ hp2, hron]
    simp
  have hW : ∀ row ∈ npRecip (rectSigma refs bkgs exptimes ron),
      row.length = exptimes.length := by
    intro row hrow
    obtain ⟨r0, h0, rfl⟩ := List.mem_map.mp hrow
    rw [List.length_map]
    exact hSG r0 h0
  have h1 : npRows (fun refer_flux => npDiv refer_flux exptimes) refs =
      .ok (rectRefSec refs exptimes) :=
    mapM_ok _ _ _ (fun rf hf => npBroadcast_of_length_eq _ _ _ (by rw [hr rf hf]))
  have h2 : npRows (fun b => npDiv b exptimes) bkgs =
      .ok (rectRefSec bkgs exptimes) :=
    mapM_ok _ _ _ (fun b hf => npBroadcast_of_length_eq _ _ _ (by rw [hb b hf]))
  have h3 : npRows (fun row => npMul row exptimes) (rectRefSec refs exptimes) =
      .ok (rectFluxExp refs exptimes) :=
    mapM_ok _ _ _ (fun row hrow => npBroadcast_of_length_eq _ _ _ (hRS row hrow))
  have h4 : npRows (fun row => npMul row exptimes) (rectRefSec bkgs exptimes) =
      .ok (rectFluxExp bkgs exptimes) :=
    mapM_ok _ _ _ (fun row hrow => npBroadcast_of_length_eq _ _ _ (hBS row hrow))
  have h5 : npZip2 (· + ·) (rectFluxExp refs exptimes) (rectFluxExp bkgs exptimes) =
      .ok (((rectFluxExp refs exptimes).zip (rectFluxExp bkgs exptimes)).map
        (fun p => List.zipWith (· + ·) p.1 p.2)) := by
    refine npZip2_ok _ _ _ ?_ ?_
    · simp [rectFluxExp, rectRefSec, hk]
    · intro p hp
      obtain ⟨hp1, hp2⟩ := List.of_mem_zip (by exact hp)
      rw [hFE _ hp1, hBE _ hp2]
  have h6 : npRows (fun row => npAdd row ron)
      (((rectFluxExp refs exptimes).zip (rectFluxExp bkgs exptimes)).map
        (fun p => List.zipWith (· + ·) p.1 p.2)) =
      .ok (rectSigma refs bkgs exptimes ron) := by
    have := mapM_ok (fun row => npAdd row ron)
      (fun row => List.zipWith (· + ·) row ron)
      (((rectFluxExp refs exptimes).zip (rectFluxExp bkgs exptimes)).map
        (fun p => List.zipWith (· + ·) p.1 p.2))
      (fun row hrow => npBroadcast_of_length_eq _ _ _ (by rw [hS1 row hrow, hron]))
    rw [npRows, this, List.map_map]
    rfl
  have havg : (rectAvg refs bkgs exptimes ron).length = exptimes.length :=
    npAverageW_length _ _ _ hFE hW
  have h7 : npDiv target (rectAvg refs bkgs exptimes ron) =
      .ok (rectDiff target refs bkgs exptimes ron) :=
    npBroadcast_of_length_eq _ _ _ (by rw [ht, havg])
  unfold do_photometry_core
  rw [show (npRows (fun refer_flux => npDiv refer_flux exptimes) refs) =
        .ok (rectRefSec refs exptimes) from h1, except_bind_ok]
  rw [h2, except_bind_ok, h3, except_bind_ok, h4, except_bind_ok,
    h5, except_bind_ok, h6, except_bind_ok]
  simp only [rectAvg, rectDiff] at h7 ⊢
  rw [h7, except_bind_ok]
  rfl

/-- Helper: a reference star whose series length is not broadcast-compatible
with the target's exposure-time array makes the core raise the broadcast
error at the first division. -/
lemma core_broadcast_error (target exptimes ron : List ℚ)
    (refs bkgs : List (List ℚ))
    (h : ∃ rf ∈ refs, ¬ npCompatible rf.length exptimes.length) :
    do_photometry_core target exptimes ron refs bkgs = .error .broadcast := by
  have hrows : npRows (fun refer_flux => npDiv refer_flux exptimes) refs =
      .error .broadcast := by
    apply mapM_error
    · intro rf _
      by_cases hc : npCompatible rf.length exptimes.length
      · exact Or.inr (npBroadcast_ok_of_compatible _ _ _ hc)
      · exact Or.inl (npBroadcast_error_of_not_compatible _ _ _ hc)
    · obtain ⟨rf, hf, hc⟩ := h
      exact ⟨rf, hf, npBroadcast_error_of_not_compatible _ _ _ hc⟩
  unfold do_photometry_core
  rw [hrows, except_bind_error]

/-- Claim C9 (amended): in `do_photometry`, each reference star's
counts-per-second series is obtained by dividing its raw counts by the
TARGET star's exposure-time array (the reference's own returned exposure
times are unused); the division follows numpy's 1-D broadcast rules, so it
succeeds whenever every reference star's good-frame count equals the
target's (and also in the degenerate length-one broadcast cases), and
raises a broadcasting error whenever some reference star's count is
incompatible (differs from the target's count with neither equal to 1). -/
theorem claim_C9 (target_flux exptimes readout_noise : List ℚ)
    (refs bkgs : List (List ℚ)) :
    ((∀ rf ∈ refs, rf.length = exptimes.length) →
     (∀ b ∈ bkgs, b.length = exptimes.length) →
     refs.length = bkgs.length →
     target_flux.length = exptimes.length →
     readout_noise.length = exptimes.length →
      ∃ out, do_photometry_core target_flux exptimes readout_noise refs bkgs =
          .ok out ∧
        out.reference_star_flux_sec =
          refs.map (fun rf => List.zipWith (· / ·) rf exptimes)) ∧
    ((∃ rf ∈ refs, ¬ npCompatible rf.length exptimes.length) →
      do_photometry_core target_flux exptimes readout_noise refs bkgs =
        .error .broadcast) := by
  constructor
  · intro hr hb hk ht hron
    exact ⟨_, core_rect target_flux exptimes readout_noise refs bkgs hr hb hk ht hron,
      rfl⟩
  · exact core_broadcast_error target_flux exptimes readout_noise refs bkgs

/-- Counterexample for C9 as stated: a reference star with a single good
frame against a target with two good frames completes WITHOUT any
broadcasting error (numpy broadcasts the length-1 array), refuting
"raises a broadcasting error whenever a reference star's good-frame count
differs from the target's". -/
theorem claim_C9_counterexample :
    do_photometry_core [4, 6] [2, 3] [1, 1] [[6]] [[12]] =
      .ok { reference_star_flux_sec := [[3, 2]], ref_flux_averaged := [6, 6],
            differential_flux := [2/3, 1], normalized_flux := [4/5, 6/5] } := by
  with_unfolding_all rfl

/-- Witness for C9 at concrete inputs: an equal-count run succeeds with the
reference series divided by the target's exposure times, and a 3-frame
reference against a 2-frame target raises the broadcast error. -/
theorem claim_C9_witness :
    (∃ out, do_photometry_core [4, 6] [2, 3] [1, 1] [[6, 9], [2, 3]]
        [[2, 3], [2, 3]] = .ok out ∧
      out.reference_star_flux_sec =
        [[6, 9], [2, 3]].map (fun rf => List.zipWith (· / ·) rf [2, 3])) ∧
    do_photometry_core [4, 6] [2, 3] [1, 1] [[6, 1, 2]] [[12, 1, 2]] =
      .error .broadcast :=
  ⟨(claim_C9 [4, 6] [2, 3] [1, 1] [[6, 9], [2, 3]] [[2, 3], [2, 3]]).1
      (by intro rf hf; simp at hf; rcases hf with rfl | rfl <;> rfl)
      (by intro b hb; simp at hb; rcases hb with rfl | rfl <;> rfl)
      rfl rfl rfl,
   (claim_C9 [4, 6] [2, 3] [1, 1] [[6, 1, 2]] [[12, 1, 2]]).2
      ⟨[6, 1, 2], by simp, by decide⟩⟩

/-- Helper: dividing by and re-multiplying with the same nonzero entries is
the identity, elementwise. -/
lemma zipWith_div_mul_cancel :
    ∀ (rf e : List ℚ), rf.length = e.length → (∀ x ∈ e, x ≠ 0) →
      List.zipWith (· * ·) (List.zipWith (· / ·) rf e) e = rf := by
  intro rf
  induction rf with
  | nil => intro e _ _; rfl
  | cons a t ih =>
    intro e hlen hz
    cases e with
    | nil => cases hlen
    | cons x xs =>
      simp only [List.zipWith_cons_cons]
      rw [div_mul_cancel₀ a (hz x (List.mem_cons_self x xs)),
        ih xs (by simpa using hlen) (fun y hy => hz y (List.mem_cons_of_mem x hy))]

/-- Helper: reciprocal of a sum, elementwise over a zip. -/
lemma zipWith_inv_add (X Y : List ℚ) :
    List.zipWith (fun x y => 1 / (x + y)) X Y =
      (List.zipWith (· + ·) X Y).map (fun x => 1 / x) := by
  induction X generalizing Y with
  | nil => rfl
  | cons a t ih =>
    cases Y with
    | nil => rfl
    | cons b bt =>
      simp only [List.zipWith_cons_cons, List.map_cons]
      rw [ih bt]

/-- Helper: under nonzero exposure times the code's weighted reference flux
coincides with the specification's variance-weighted average formula. -/
lemma rectAvg_eq_spec (refs bkgs : List (List ℚ)) (exptimes ron : List ℚ)
    (hr : ∀ rf ∈ refs, rf.length = exptimes.length)
    (hb : ∀ b ∈ bkgs, b.length = exptimes.length)
    (hz : ∀ x ∈ exptimes, x ≠ 0) :
    rectAvg refs bkgs exptimes ron =
      specWeightedReferenceFlux refs bkgs ron exptimes.length := by
  have hFE : rectFluxExp refs exptimes = refs := by
    unfold rectFluxExp rectRefSec
    rw [List.map_map]
    exact (List.map_congr_left
      (fun rf hf => zipWith_div_mul_cancel rf exptimes (hr rf hf) hz)).trans
      (List.map_id refs)
  have hBE : rectFluxExp bkgs exptimes = bkgs := by
    unfold rectFluxExp rectRefSec
    rw [List.map_map]
    exact (List.map_congr_left
      (fun b hf => zipWith_div_mul_cancel b exptimes (hb b hf) hz)).trans
      (List.map_id bkgs)
  unfold rectAvg rectSigma npRecip specWeightedReferenceFlux
  rw [hFE, hBE, List.map_map]
  simp only [zipWith_inv_add]
  rw [← map_zip_eq_zipWith
    (fun c b => (List.zipWith (· + ·) (List.zipWith (· + ·) c b) ron).map
      (fun x => 1 / x)) refs bkgs]
  rfl

/-- Claim C3: in `do_photometry`, the differential flux equals the target's
raw counts divided elementwise by the variance-weighted average (weights =
inverse of `flux*exptime + background*exptime + readout_variance`) of the
per-exposure reference fluxes, and the normalized flux equals that
differential flux divided by its median. -/
theorem claim_C3 (target_flux exptimes readout_noise : List ℚ)
    (refs bkgs : List (List ℚ))
    (hz : ∀ x ∈ exptimes, x ≠ 0)
    (hr : ∀ rf ∈ refs, rf.length = exptimes.length)
    (hb : ∀ b ∈ bkgs, b.length = exptimes.length)
    (hk : refs.length = bkgs.length)
    (ht : target_flux.length = exptimes.length)
    (hron : readout_noise.length = exptimes.length) :
    ∃ out, do_photometry_core target_flux exptimes readout_noise refs bkgs =
        .ok out ∧
      out.differential_flux =
        specDifferentialFlux target_flux
          (specWeightedReferenceFlux refs bkgs readout_noise exptimes.length) ∧
      out.normalized_flux =
        specNormalizedFlux (specDifferentialFlux target_flux
          (specWeightedReferenceFlux refs bkgs readout_noise exptimes.length)) := by
  have hAvg := rectAvg_eq_spec refs bkgs exptimes readout_noise hr hb hz
  refine ⟨_, core_rect target_flux exptimes readout_noise refs bkgs hr hb hk ht hron,
    ?_, ?_⟩
  · simp only [rectDiff, specDifferentialFlux, hAvg]
  · simp only [rectDiff, specDifferentialFlux, specNormalizedFlux, hAvg]

/-- Witness for C3 at concrete inputs. -/
theorem claim_C3_witness :
    ∃ out, do_photometry_core [4, 6] [2, 3] [1, 1] [[6, 9], [2, 3]]
        [[2, 3], [2, 3]] = .ok out ∧
      out.differential_flux =
        specDifferentialFlux [4, 6]
          (specWeightedReferenceFlux [[6, 9], [2, 3]] [[2, 3], [2, 3]] [1, 1] 2) ∧
      out.normalized_flux =
        specNormalizedFlux (specDifferentialFlux [4, 6]
          (specWeightedReferenceFlux [[6, 9], [2, 3]] [[2, 3], [2, 3]] [1, 1] 2)) :=
  claim_C3 [4, 6] [2, 3] [1, 1] [[6, 9], [2, 3]] [[2, 3], [2, 3]]
    (by intro x hx; simp at hx; rcases hx with rfl | rfl <;> norm_num)
    (by intro rf hf; simp at hf; rcases hf with rfl | rfl <;> rfl)
    (by intro b hb; simp at hb; rcases hb with rfl | rfl <;> rfl)
    rfl rfl rfl

/-- Helper: `getD` through a `map` at an in-range index. -/
lemma getD_map_of_lt (l : List ℚ) (f : ℚ → ℚ) (i : Nat) (h : i < l.length) :
    (l.map f).getD i 0 = f (l.getD i 0) := by
  have he : l[i]? = some l[i] := List.getElem?_eq_getElem h
  rw [List.getD_eq_getElem?_getD, List.getD_eq_getElem?_getD,
    List.getElem?_map, he]
  rfl

/-- Helper: sorting commutes with subtracting a constant. -/
lemma insertionSort_map_sub (xs : List ℚ) (c : ℚ) :
    List.insertionSort (· ≤ ·) (xs.map (fun v => v - c)) =
      (List.insertionSort (· ≤ ·) xs).map (fun v => v - c) := by
  exact List.eq_of_perm_of_sorted
    ((List.perm_insertionSort _ _).trans
      ((List.perm_insertionSort _ xs).symm.map _))
    (List.sorted_insertionSort ((· ≤ ·) : ℚ → ℚ → Prop) _)
    (List.Pairwise.map _
      (fun a b hab => sub_le_sub_right hab c)
      (List.sorted_insertionSort ((· ≤ ·) : ℚ → ℚ → Prop) xs))

/-- Helper: `np.median(xs - c) = np.median(xs) - c` for a nonempty array. -/
lemma npMedian_map_sub (xs : List ℚ) (c : ℚ) (h : xs ≠ []) :
    npMedian (xs.map (fun v => v - c)) = npMedian xs - c := by
  unfold npMedian
  rw [insertionSort_map_sub, List.length_map]
  have hne : (xs.insertionSort (· ≤ ·)).length ≠ 0 := by
    rw [(List.perm_insertionSort _ xs).length_eq]
    simpa using h
  have hpos : 0 < (xs.insertionSort (· ≤ ·)).length := Nat.pos_of_ne_zero hne
  split_ifs with h0 hodd
  · exact absurd h0 hne
  · rw [getD_map_of_lt _ _ _ (Nat.div_lt_self hpos (by norm_num))]
  · rw [getD_map_of_lt _ _ _ (Nat.div_lt_self hpos (by norm_num)),
      getD_map_of_lt _ _ _
        (lt_of_le_of_lt (Nat.sub_le _ _) (Nat.div_lt_self hpos (by norm_num)))]
    ring

/-- Claim C7 (amended): the Centroid Refiner's mask marks exactly the pixels
whose value is `np.isclose` to `median(sub_image) - 1.0 * std(sub_image)`
(the tolerance of `np.ma.masked_values`, `atol + rtol * |threshold|`);
pixels merely at or below that threshold but not close to it are NOT
masked. -/
theorem claim_C7 (libs : Libs) (sub : Mat) (s : ℚ)
    (hstd : libs.np_std sub.flatten = s)
    (hs2 : s ^ 2 = npVar sub.flatten) (hs0 : 0 ≤ s)
    (hne : sub.flatten ≠ []) :
    centroidMask libs sub =
      sub.map (fun row => row.map (fun v =>
        npCloseMask v (npMedian sub.flatten - s))) := by
  unfold centroidMask centroidThreshold
  rw [hstd]
  simp only [one_mul]
  rw [npMedian_map_sub _ _ hne]

/-- Counterexample for C7 as stated: over the sub-image `[-4, 1, 1, 1, 1]`
the true standard deviation is 2 and the threshold
`median - 1.0 * std = -1`; the pixel `-4` is at or below the threshold, yet
the mask built by `ma.masked_values` (which masks only values close to the
threshold) leaves every pixel unmasked. -/
theorem claim_C7_counterexample :
    oneLibs.np_std [(-4 : ℚ), 1, 1, 1, 1] = 2 ∧
    (2 : ℚ) ^ 2 = npVar [(-4 : ℚ), 1, 1, 1, 1] ∧
    (0 : ℚ) ≤ 2 ∧
    (-4 : ℚ) ≤ npMedian [(-4 : ℚ), 1, 1, 1, 1] - 1 * 2 ∧
    centroidMask oneLibs [[(-4 : ℚ), 1, 1, 1, 1]] =
      [[false, false, false, false, false]] := by
  refine ⟨rfl, by with_unfolding_all rfl, by norm_num, ?_, by with_unfolding_all rfl⟩
  have hm : npMedian [(-4 : ℚ), 1, 1, 1, 1] = 1 := by with_unfolding_all rfl
  rw [hm]
  norm_num

/-- Witness for C7 at concrete inputs. -/
theorem claim_C7_witness :
    centroidMask oneLibs [[(-4 : ℚ), 1, 1, 1, 1]] =
      [[(-4 : ℚ), 1, 1, 1, 1]].map (fun row => row.map (fun v =>
        npCloseMask v (npMedian (List.flatten [[(-4 : ℚ), 1, 1, 1, 1]]) - 2))) :=
  claim_C7 oneLibs [[(-4 : ℚ), 1, 1, 1, 1]] 2 rfl (by with_unfolding_all rfl)
    (by norm_num) (by simp)

/-- Helper: a normalised slice bound never exceeds the length. -/
lemma pySliceIdx_le (n : Nat) (i : Int) : pySliceIdx n i ≤ n := by
  unfold pySliceIdx
  split_ifs <;> omega

/-- Helper: the length of a Python slice is the difference of its
normalised bounds. -/
lemma pySlice_length {α : Type} (xs : List α) (a b : Int) :
    (pySlice xs a b).length =
      pySliceIdx xs.length b - pySliceIdx xs.length a := by
  unfold pySlice
  rw [List.length_drop, List.length_take]
  have := pySliceIdx_le xs.length b
  omega

/-- Helper: the row count of the sub-image cut. -/
lemma subImage_rows (data : Mat) (x y : ℚ) (w : Int) :
    (subImage data x y w).length =
      pySliceIdx data.length (pyInt x + w) -
        pySliceIdx data.length (pyInt x - w) := by
  unfold subImage
  rw [List.length_map, pySlice_length]

/-- Helper: when the window crosses an edge of the array — excluding the
fully-wrapped interior window — the slice is strictly shorter than the full
window height `2 * w`. -/
lemma slice_truncated (n : Nat) (s w : Int) (hw : 1 ≤ w)
    (hedge : s - w < 0 ∨ (n : Int) < s + w)
    (hwrap : 0 < s + w ∨ s - w < -(n : Int)) :
    (pySliceIdx n (s + w) - pySliceIdx n (s - w) : Nat) < (2 * w).toNat := by
  unfold pySliceIdx
  split_ifs <;> omega

/-- Helper: a celestial frame that passes the box check and whose aperture
measurement succeeds is processed and pushed, whatever the shape of its
sub-image cutout. -/
lemma extractLoop_step_ok (libs : Libs) (cfg : Config) (f : Frame)
    (rest : List Frame) (st : ExtractState) (counts bkg : ℚ)
    (hc : f.is_celestial = true) (hb : ¬ cfg.r_out > (cfg.box_w : ℚ))
    (hm : frameMeasure libs cfg f = .ok (counts, bkg)) :
    extractLoop libs cfg (f :: rest) st =
      extractLoop libs cfg rest
        (pushFrame { st with exptimes := st.exptimes ++ [f.exptime * 24 * 60 * 60] }
          f counts bkg) := by
  simp only [extractLoop, hc, if_true, if_neg hb]
  rw [hm]

/-- Claim C10 (amended): the Extractor performs no bounds check on the
sub-image cut: whenever the window of half-width `box_w` around the
truncated pixel position crosses an image edge (excluding the fully-wrapped
case where both negative slice bounds denote an interior window), Python
slicing silently yields a cutout with strictly fewer than `2 * box_w` rows
(truncated or empty), and such a frame is still processed rather than
rejected: if its aperture measurement succeeds it is appended to
`good_frames_list` like any other frame. -/
theorem claim_C10 (libs : Libs) (cfg : Config) (f : Frame)
    (rest : List Frame) (st : ExtractState)
    (hw : 1 ≤ cfg.box_w)
    (hedge : pyInt f.pix_x - cfg.box_w < 0 ∨
      (f.data.length : Int) < pyInt f.pix_x + cfg.box_w)
    (hwrap : 0 < pyInt f.pix_x + cfg.box_w ∨
      pyInt f.pix_x - cfg.box_w < -(f.data.length : Int)) :
    (frameSub f cfg.box_w).length < (2 * cfg.box_w).toNat ∧
    (∀ counts bkg, f.is_celestial = true → ¬ cfg.r_out > (cfg.box_w : ℚ) →
      frameMeasure libs cfg f = .ok (counts, bkg) →
      extractLoop libs cfg (f :: rest) st =
        extractLoop libs cfg rest
          (pushFrame
            { st with exptimes := st.exptimes ++ [f.exptime * 24 * 60 * 60] }
            f counts bkg) ∧
      (pushFrame
          { st with exptimes := st.exptimes ++ [f.exptime * 24 * 60 * 60] }
          f counts bkg).good_frames_list = st.good_frames_list ++ [f.id]) := by
  constructor
  · rw [frameSub, subImage_rows]
    exact slice_truncated f.data.length (pyInt f.pix_x) cfg.box_w hw hedge hwrap
  · intro counts bkg hc hb hm
    exact ⟨extractLoop_step_ok libs cfg f rest st counts bkg hc hb hm, rfl⟩

/-- A frame whose integer position is far off the low edge: position `-2`
with box half-width 1 on a 4-row image gives the all-negative slice
`[-3:-1]`, which wraps to the interior rows `[1:3]`. -/
def wrapFrame : Frame :=
  { id := 9, is_celestial := true, pix_y := 0, pix_x := -2,
    data := [[1], [2], [3], [4]], exptime := 1/86400, obstime := 0 }

/-- Counterexample for C10 as stated: for `wrapFrame` the slice bounds are
negative, yet the cutout is NOT truncated or empty — it has the full
`2 * box_w = 2` rows (taken from the wrong, wrapped location). -/
theorem claim_C10_counterexample :
    pyInt (-2 : ℚ) - 1 = -3 ∧ ((-3 : Int) < 0) ∧
    (frameSub wrapFrame 1).length = 2 ∧ ((2 : Int) * 1).toNat = 2 := by
  refine ⟨by with_unfolding_all rfl, by decide, by with_unfolding_all rfl, rfl⟩

/-- A frame near the low edge: integer position 0 with box half-width 2 on
a 3-row image. -/
def edgeFrame : Frame :=
  { id := 11, is_celestial := true, pix_y := 0, pix_x := 1/2,
    data := [[1], [2], [3]], exptime := 1/86400, obstime := 0 }

/-- Configuration whose aperture fits the box of half-width 2. -/
def cfgEdge : Config := { r := 1/2, box_w := 2 }

/-- Witness for C10 at concrete inputs: the cutout near the edge is
truncated, and the frame is processed and appended all the same. -/
theorem claim_C10_witness :
    (frameSub edgeFrame 2).length < ((2 : Int) * 2).toNat ∧
    extractLoop oneLibs cfgEdge [edgeFrame] {} =
      extractLoop oneLibs cfgEdge []
        (pushFrame
          { ({} : ExtractState) with
            exptimes := ({} : ExtractState).exptimes ++
              [edgeFrame.exptime * 24 * 60 * 60] }
          edgeFrame 8 2) :=
  ⟨(claim_C10 oneLibs cfgEdge edgeFrame [] {} (by decide)
      (Or.inl (by with_unfolding_all decide))
      (Or.inl (by with_unfolding_all decide))).1,
   ((claim_C10 oneLibs cfgEdge edgeFrame [] {} (by decide)
      (Or.inl (by with_unfolding_all decide))
      (Or.inl (by with_unfolding_all decide))).2 8 2 rfl
      (by norm_num [Config.r_out, cfgEdge])
      (by with_unfolding_all rfl)).1⟩

end Transito
